import Mathlib

/-!
Verification of the betting-market core of `main.py` / `market.py`
(discord-betting-market).

The SQLite tables `markets`, `market_outcomes`, `bet_offers` and
`accepted_bets` are embedded as lists of records inside a `Store`; the
AUTOINCREMENT row ids are modelled with explicit `next_*` counters.  Each
command / reaction handler of `main.py` is embedded as a pure function
`Store → ... → Store × outcome`, translated statement by statement from the
source (SQL `SELECT ... WHERE key = ?` with `fetchone` becomes `List.find?`,
`UPDATE` becomes `List.map`, `DELETE` becomes `List.filter`, `INSERT`
becomes an append).  Python floats carrying dollar amounts are embedded
as rationals.
-/

namespace BettingMarket

/-- `markets.status`: CHECK (status IN ('open', 'closed', 'resolved')). -/
inductive MarketStatus
  | open'
  | closed
  | resolved
deriving DecidableEq, Repr

/-- `bet_offers.status`: CHECK (status IN ('open', 'accepted', 'cancelled')). -/
inductive OfferStatus
  | open'
  | accepted
  | cancelled
deriving DecidableEq, Repr

/-- `accepted_bets.status`: CHECK (status IN ('active', 'completed', 'void')). -/
inductive AcceptedStatus
  | active
  | completed
  | void
deriving DecidableEq, Repr

/-- A row of the `markets` table (the columns the core logic reads:
`market_id`, `title`, `status`, `winning_outcome`, `creator_id`,
`resolver_id`; `creator_id` and `resolver_id` are nullable). -/
structure Market where
  market_id : Nat
  title : String
  status : MarketStatus
  winning_outcome : Option String
  creator_id : Option String
  resolver_id : Option String
deriving DecidableEq, Repr

/-- A row of the `market_outcomes` table. -/
structure MarketOutcome where
  market_id : Nat
  outcome_name : String
deriving DecidableEq, Repr

/-- A row of the `bet_offers` table. -/
structure BetOffer where
  bet_id : Nat
  market_id : Nat
  bettor_id : String
  outcome : String
  offer_amount : Rat
  ask_amount : Rat
  status : OfferStatus
  target_user_id : Option String
deriving DecidableEq, Repr

/-- A row of the `accepted_bets` table. -/
structure AcceptedBet where
  accepted_bet_id : Nat
  bet_id : Nat
  acceptor_id : String
  status : AcceptedStatus
deriving DecidableEq, Repr

/-- The whole SQLite database; the `next_*` fields model the AUTOINCREMENT
counters (SQLite starts them at 1 and never reuses an id). -/
structure Store where
  markets : List Market
  outcomes : List MarketOutcome
  bet_offers : List BetOffer
  accepted_bets : List AcceptedBet
  next_market_id : Nat
  next_bet_id : Nat
  next_accepted_id : Nat
deriving DecidableEq, Repr

/-- A fresh database. -/
def initStore : Store := ⟨[], [], [], [], 1, 1, 1⟩

/-- `!createmarket` (`create_market` in `main.py`): after the front end has
split the text into a title and a list of options, the handler refuses fewer
than two options and otherwise inserts one `markets` row (status defaults to
`'open'`, `winning_outcome` and `resolver_id` stay NULL) and one
`market_outcomes` row per option.  Returns the new market id on success. -/
def create_market (s : Store) (creator_id : String) (title : String)
    (options : List String) : Store × Option Nat :=
  if options.length < 2 then (s, none)
  else
    let mid := s.next_market_id
    let m : Market := ⟨mid, title, MarketStatus.open', none, some creator_id, none⟩
    ({ s with
        markets := s.markets ++ [m],
        outcomes := s.outcomes ++ options.map (fun o => ⟨mid, o⟩),
        next_market_id := mid + 1 },
     some mid)

/-- The deadline-elapsed branch of `handle_market_countdown` (both in
`main.py` and `market.py`): `UPDATE markets SET status = 'closed' WHERE
market_id = ?` — unconditionally, with no check of the current status. -/
def handle_market_countdown_close (s : Store) (market_id : Nat) : Store :=
  { s with
      markets := s.markets.map (fun m =>
        if m.market_id == market_id then { m with status := MarketStatus.closed } else m) }

/-- `str` applied to a nullable column, as Python's `str()` renders `None`. -/
def pyStr : Option String → String
  | none => "None"
  | some x => x

/-- The 🇷 reaction (`handle_set_market_resolver` in `main.py`): only the
creator may proceed, and only while the market is `'open'`; then
`UPDATE markets SET resolver_id = ?`. -/
def handle_set_market_resolver (s : Store) (user_id : String) (market_id : Nat)
    (resolver_id : String) : Store :=
  match s.markets.find? (fun m => m.market_id == market_id) with
  | none => s
  | some m =>
    if user_id != pyStr m.creator_id then s
    else if m.status != MarketStatus.open' then s
    else
      { s with
          markets := s.markets.map (fun mm =>
            if mm.market_id == market_id then { mm with resolver_id := some resolver_id } else mm) }

/-- Outcome of the bet-offer creation flow (`handle_bet_offer_reaction`). -/
inductive OfferOutcome
  | marketNotOpen
  | invalidRisk
  | invalidWinnings
  | created (bet_id : Nat)
deriving DecidableEq, Repr

/-- The bet-offer creation flow (`handle_bet_offer_reaction` in `main.py`):
after checking that the market row exists and is `'open'`, the handler asks
the user for the risk and win amounts, parsing each reply with `float(...)`.
A reply `float` cannot parse aborts the flow (`ValueError`); any number it
can parse — zero or negative included — is inserted verbatim as a new
`'open'` row of `bet_offers`.  The two amount replies are embedded as
`Option Rat` (`none` = `float` raised `ValueError`); the outcome comes from
the dropdown, the target from an optional mention. -/
def handle_bet_offer_reaction (s : Store) (user_id : String) (market_id : Nat)
    (selected_option : String) (target_user : Option String)
    (riskReply : Option Rat) (winningsReply : Option Rat) : Store × OfferOutcome :=
  match s.markets.find? (fun m => m.market_id == market_id) with
  | none => (s, OfferOutcome.marketNotOpen)
  | some m =>
    if m.status != MarketStatus.open' then (s, OfferOutcome.marketNotOpen)
    else
      match riskReply with
      | none => (s, OfferOutcome.invalidRisk)
      | some offer_amount =>
        match winningsReply with
        | none => (s, OfferOutcome.invalidWinnings)
        | some ask_amount =>
          let bo : BetOffer :=
            ⟨s.next_bet_id, market_id, user_id, selected_option,
             offer_amount, ask_amount, OfferStatus.open', target_user⟩
          ({ s with
              bet_offers := s.bet_offers ++ [bo],
              next_bet_id := s.next_bet_id + 1 },
           OfferOutcome.created s.next_bet_id)

/-- The module-level names of `main.py` that are in scope inside its
handlers (imports, module constants, classes, the bot object, and every
function defined at top level). -/
def mainModuleGlobals : List String :=
  ["os", "sqlite3", "Decimal", "load_dotenv", "discord", "commands",
   "Select", "View", "asyncio", "datetime", "re", "pytz", "TOKEN",
   "BettingDatabase", "OutcomeSelect", "BetView", "BettingBot", "bot",
   "on_ready", "create_market", "on_raw_reaction_add",
   "handle_market_react_help", "update_market_stats",
   "handle_bet_react_help", "handle_set_market_timer",
   "update_market_embed", "handle_market_countdown",
   "handle_set_market_resolver", "handle_bet_cancellation",
   "handle_bet_explanation", "handle_bet_offer_reaction",
   "handle_bet_acceptance", "offer_bet", "accept_bet", "cancel_bet",
   "list_markets", "list_bets", "resolve_market", "my_bets", "explain_bet",
   "noslop", "dennis_help"]

/-- The local names bound in the body of `handle_bet_acceptance(message,
user, bet_id)` in `main.py` by the time it reaches its
`update_market_stats(message, market_data['market_id'])` call. -/
def handleBetAcceptanceLocals : List String :=
  ["message", "user", "bet_id", "conn", "cursor", "bet", "market_id",
   "bettor_id", "bet_status", "outcome", "offer_amount", "ask_amount",
   "market_status", "target_user_id", "title", "description", "bettor",
   "bettor_name", "embed"]

/-- Python name resolution at the post-commit `update_market_stats` call of
`handle_bet_acceptance`: a name resolves iff it is a local of the handler
or a module-level global; otherwise evaluating it raises `NameError`. -/
def resolvesInAcceptanceHandler (n : String) : Bool :=
  handleBetAcceptanceLocals.contains n || mainModuleGlobals.contains n

/-- Outcome of the ✅ reaction handler `handle_bet_acceptance` in `main.py`,
one constructor per `channel.send` early return plus the two conceivable
ends of the success path.  The error taxonomy of the spec maps `notFound`
to NotFoundError, `ownBet` and `targetedOther` to AuthorizationError, and
`notOpen` / `marketNotOpen` to StateError. -/
inductive AcceptOutcome
  | notFound
  | ownBet
  | notOpen
  | marketNotOpen
  | targetedOther
  | accepted
  | nameErrorAfterCommit (undefined_name : String)
deriving DecidableEq, Repr

/-- The ✅ reaction (`handle_bet_acceptance` in `main.py`): fetch the offer
row joined with its market; refuse self-acceptance, a non-open offer, a
non-open market, and a mismatched target — in that order.  Otherwise
`UPDATE bet_offers SET status = 'accepted'` and `INSERT INTO accepted_bets`
are committed, after which the handler evaluates
`update_market_stats(message, market_data['market_id'])`; the name
`market_data` is neither a local nor a global there, so the call raises
`NameError` — after the acceptance has been durably committed. -/
def handle_bet_acceptance (s : Store) (user_id : String) (bet_id : Nat) :
    Store × AcceptOutcome :=
  match s.bet_offers.find? (fun b => b.bet_id == bet_id) with
  | none => (s, AcceptOutcome.notFound)
  | some bo =>
    match s.markets.find? (fun m => m.market_id == bo.market_id) with
    | none => (s, AcceptOutcome.notFound)
    | some m =>
      if user_id == bo.bettor_id then (s, AcceptOutcome.ownBet)
      else if bo.status != OfferStatus.open' then (s, AcceptOutcome.notOpen)
      else if m.status != MarketStatus.open' then (s, AcceptOutcome.marketNotOpen)
      else if (match bo.target_user_id with
               | some t => user_id != t
               | none => false) then (s, AcceptOutcome.targetedOther)
      else
        let s' : Store :=
          { s with
              bet_offers := s.bet_offers.map (fun b =>
                if b.bet_id == bet_id then { b with status := OfferStatus.accepted } else b),
              accepted_bets := s.accepted_bets ++
                [⟨s.next_accepted_id, bet_id, user_id, AcceptedStatus.active⟩],
              next_accepted_id := s.next_accepted_id + 1 }
        (s', if resolvesInAcceptanceHandler "market_data"
             then AcceptOutcome.accepted
             else AcceptOutcome.nameErrorAfterCommit "market_data")

/-- Outcome of `!cancelbet` (`cancel_bet`) and of the ❌ reaction
(`handle_bet_cancellation`), whose database logic is identical. -/
inductive CancelOutcome
  | notFound
  | notOwner
  | deleted
deriving DecidableEq, Repr

/-- `!cancelbet` / ❌ reaction (`cancel_bet` and `handle_bet_cancellation`
in `main.py`): fetch `bettor_id` for the offer; refuse an unknown offer and
a requester other than the bettor; then — with no check of the offer's
status whatsoever — `DELETE FROM bet_offers WHERE bet_id = ?` and commit.
The row in `accepted_bets`, if the offer had been accepted, is not touched. -/
def handle_bet_cancellation (s : Store) (user_id : String) (bet_id : Nat) :
    Store × CancelOutcome :=
  match s.bet_offers.find? (fun b => b.bet_id == bet_id) with
  | none => (s, CancelOutcome.notFound)
  | some bo =>
    if user_id != bo.bettor_id then (s, CancelOutcome.notOwner)
    else
      ({ s with
          bet_offers := s.bet_offers.filter (fun b => !(b.bet_id == bet_id)) },
       CancelOutcome.deleted)

/-- One line of the settlement report printed by `resolve_market`. -/
structure BetResult where
  bet_id : Nat
  winner_id : String
  loser_id : String
  win_amount : Rat
deriving DecidableEq, Repr

/-- Error outcomes of `!resolvemarket` (`resolve_market` in `main.py`):
NotFoundError / AuthorizationError / StateError / ValidationError. -/
inductive ResolveError
  | marketNotFound
  | notAuthorized
  | alreadyResolved
  | invalidOutcome
deriving DecidableEq, Repr

/-- The `SELECT ... FROM bet_offers bo JOIN accepted_bets ab ON bo.bet_id =
ab.bet_id WHERE bo.market_id = ? AND ab.status = 'active'` read performed by
`resolve_market` before its updates. -/
def activeBets (s : Store) (market_id : Nat) : List (BetOffer × AcceptedBet) :=
  (s.bet_offers.filter (fun bo => bo.market_id == market_id)).flatMap
    (fun bo =>
      (s.accepted_bets.filter (fun ab =>
        ab.bet_id == bo.bet_id && ab.status == AcceptedStatus.active)).map
        (fun ab => (bo, ab)))

/-- `!resolvemarket` (`resolve_market` in `main.py`).  The authorization
check is guarded by `if creator_id is not None and resolver_id is not None`
— when either column is NULL the check is skipped entirely.  Then: refuse
an already-resolved market; refuse a `winning_outcome` absent from
`market_outcomes`; otherwise set `status = 'resolved'` and
`winning_outcome`, read the active accepted bets, mark every accepted bet
of the market `'completed'`, cancel the market's still-`'open'` offers, and
commit; the settlement report pairs each matched bet with its winner,
loser and win amount: the bettor wins `ask_amount` when the offer's outcome
is the winning one, otherwise the acceptor wins `offer_amount`. -/
def resolve_market (s : Store) (market_id : Nat) (author_id : String)
    (winning_outcome : String) : Store × Except ResolveError (List BetResult) :=
  match s.markets.find? (fun m => m.market_id == market_id) with
  | none => (s, Except.error ResolveError.marketNotFound)
  | some m =>
    let authRefused : Bool :=
      match m.creator_id, m.resolver_id with
      | some c, some r => author_id != c && author_id != r
      | _, _ => false
    if authRefused then (s, Except.error ResolveError.notAuthorized)
    else if m.status == MarketStatus.resolved then
      (s, Except.error ResolveError.alreadyResolved)
    else if !(s.outcomes.any (fun o =>
        o.market_id == market_id && o.outcome_name == winning_outcome)) then
      (s, Except.error ResolveError.invalidOutcome)
    else
      let active := activeBets s market_id
      let s' : Store :=
        { s with
            markets := s.markets.map (fun mm =>
              if mm.market_id == market_id then
                { mm with status := MarketStatus.resolved,
                          winning_outcome := some winning_outcome }
              else mm),
            accepted_bets := s.accepted_bets.map (fun ab =>
              if s.bet_offers.any (fun bo =>
                  bo.bet_id == ab.bet_id && bo.market_id == market_id) then
                { ab with status := AcceptedStatus.completed }
              else ab),
            bet_offers := s.bet_offers.map (fun bo =>
              if bo.market_id == market_id && bo.status == OfferStatus.open' then
                { bo with status := OfferStatus.cancelled }
              else bo) }
      let results := active.map (fun p =>
        if p.1.outcome == winning_outcome then
          BetResult.mk p.1.bet_id p.1.bettor_id p.2.acceptor_id p.1.ask_amount
        else
          BetResult.mk p.1.bet_id p.2.acceptor_id p.1.bettor_id p.1.offer_amount)
      (s', Except.ok results)

/-- Equity classification produced by the ❔ reaction
(`handle_bet_explanation` in `main.py`). -/
inductive EquityExplanation
  | freeBet
  | pureGift
  | equityNeeded (pct : Rat)
deriving DecidableEq, Repr

/-- The equity part of `handle_bet_explanation` in `main.py`: `if ask == 0`
the bet is "a free bet for the acceptor"; `elif offer == 0` it is "a pure
gift from the bettor"; otherwise the needed equity is
`(ask / (ask + offer)) * 100`. -/
def breakEvenEquity (offer : Rat) (ask : Rat) : EquityExplanation :=
  if ask == 0 then EquityExplanation.freeBet
  else if offer == 0 then EquityExplanation.pureGift
  else EquityExplanation.equityNeeded (ask / (ask + offer) * 100)

/-- One front-end-triggered core operation, carrying the final, fully
collected inputs of the corresponding handler. -/
inductive Op
  | create (creator title : String) (options : List String)
  | setResolver (user : String) (market_id : Nat) (resolver : String)
  | offer (user : String) (market_id : Nat) (outcome : String)
      (target : Option String) (risk winnings : Option Rat)
  | accept (user : String) (bet_id : Nat)
  | cancel (user : String) (bet_id : Nat)
  | close (market_id : Nat)
  | resolve (market_id : Nat) (user outcome : String)
deriving DecidableEq, Repr

/-- Apply one operation to the store (discarding the handler's reply). -/
def applyOp (s : Store) : Op → Store
  | Op.create c t opts => (create_market s c t opts).1
  | Op.setResolver u mid r => handle_set_market_resolver s u mid r
  | Op.offer u mid outc tgt risk win =>
      (handle_bet_offer_reaction s u mid outc tgt risk win).1
  | Op.accept u bid => (handle_bet_acceptance s u bid).1
  | Op.cancel u bid => (handle_bet_cancellation s u bid).1
  | Op.close mid => handle_market_countdown_close s mid
  | Op.resolve mid u w => (resolve_market s mid u w).1

/-- The store reached from a fresh database by a sequence of operations. -/
def run (ops : List Op) : Store := ops.foldl applyOp initStore

deriving instance DecidableEq for Except

/-!  Concrete traces used throughout: the spec's running scenario — market
"Rain?" with outcomes Yes/No created by A, an offer by A on Yes risking 10
to win 20, accepted by B.  -/

/-- Create the scenario market. -/
def opsMarket : List Op := [Op.create "A" "Rain?" ["Yes", "No"]]

/-- ... then A offers 10 to win 20 on Yes. -/
def opsOffer : List Op := opsMarket ++ [Op.offer "A" 1 "Yes" none (some 10) (some 20)]

/-- ... then B accepts A's offer. -/
def opsAccepted : List Op := opsOffer ++ [Op.accept "B" 1]

/-- ... the market resolved (without the offer/acceptance). -/
def opsResolved : List Op := opsMarket ++ [Op.resolve 1 "A" "Yes"]

/-- ... resolved and then hit by the countdown close. -/
def opsResolvedThenClosed : List Op := opsResolved ++ [Op.close 1]

/-- ... offer accepted and then cancelled by its bettor. -/
def opsOrphan : List Op := opsAccepted ++ [Op.cancel "A" 1]

/-- Any invariant of the fresh store that every operation preserves holds
in every reachable store. -/
theorem foldl_invariant {P : Store → Prop} (h0 : P initStore)
    (hstep : ∀ s op, P s → P (applyOp s op)) (ops : List Op) : P (run ops) := by
  suffices h : ∀ s, P s → P (ops.foldl applyOp s) from h _ h0
  induction ops with
  | nil => exact fun s hs => hs
  | cons op rest ih => exact fun s hs => ih _ (hstep s op hs)

/-- Mapping a `bet_id`-preserving update over `accepted_bets` does not
change which offer ids are referenced. -/
theorem exists_betId_of_map (l : List AcceptedBet) (k : AcceptedBet → AcceptedBet)
    (hk : ∀ ab, (k ab).bet_id = ab.bet_id) (x : Nat) :
    (∃ ab ∈ l.map k, ab.bet_id = x) ↔ ∃ ab ∈ l, ab.bet_id = x := by
  simp only [List.mem_map]
  constructor
  · rintro ⟨ab, ⟨ab0, h0, rfl⟩, hid⟩
    exact ⟨ab0, h0, by rw [hk] at hid; exact hid⟩
  · rintro ⟨ab0, h0, hid⟩
    exact ⟨k ab0, ⟨ab0, h0, rfl⟩, by rw [hk]; exact hid⟩

/-- C1.  The claim reads: a `ResolveMarket` call whose requester is neither
the creator nor the resolver fails with `AuthorizationError` and leaves the
market unchanged, *including when `resolver_id` is null*.  The code guards
its authorization check with `if creator_id is not None and resolver_id is
not None`, so with a null `resolver_id` (the state every market is created
in — `!createmarket` never sets a resolver) the check is skipped: here
"mallory", who is neither the creator "A" nor a resolver, successfully
resolves the market. -/
theorem resolve_market_skips_auth_when_resolver_null :
    ((run opsMarket).markets.map Market.creator_id = [some "A"])
  ∧ ((run opsMarket).markets.map Market.resolver_id = [none])
  ∧ ((resolve_market (run opsMarket) 1 "mallory" "Yes").2 = Except.ok [])
  ∧ ((resolve_market (run opsMarket) 1 "mallory" "Yes").1.markets.map Market.status
      = [MarketStatus.resolved])
  ∧ ((resolve_market (run opsMarket) 1 "mallory" "Yes").1.markets.map Market.winning_outcome
      = [some "Yes"]) := by decide

/-- C5 counterexample.  The claim reads: applied to a resolved market,
CloseMarket leaves the market's status (and all other fields) unchanged.
On a resolved market the countdown close flips the status to `'closed'`
anyway: the store does change. -/
theorem countdown_close_mutates_resolved_market :
    ((run opsResolved).markets.map Market.status = [MarketStatus.resolved])
  ∧ ((handle_market_countdown_close (run opsResolved) 1).markets.map Market.status
      = [MarketStatus.closed])
  ∧ handle_market_countdown_close (run opsResolved) 1 ≠ run opsResolved := by decide

/-- C5 amended: the countdown close sets the status of the targeted market
to `'closed'` unconditionally.  It is idempotent, touches no table other
than `markets` and no field other than `status`, and is a genuine no-op
when the targeted market is already closed — but a resolved market is
demoted to closed rather than left unchanged. -/
theorem countdown_close_unconditional (s : Store) (mid : Nat) :
    handle_market_countdown_close (handle_market_countdown_close s mid) mid
      = handle_market_countdown_close s mid
  ∧ ((handle_market_countdown_close s mid).outcomes = s.outcomes
      ∧ (handle_market_countdown_close s mid).bet_offers = s.bet_offers
      ∧ (handle_market_countdown_close s mid).accepted_bets = s.accepted_bets)
  ∧ (∀ m ∈ s.markets, m.market_id ≠ mid → m ∈ (handle_market_countdown_close s mid).markets)
  ∧ (∀ m ∈ s.markets, m.market_id = mid →
      { m with status := MarketStatus.closed } ∈ (handle_market_countdown_close s mid).markets)
  ∧ ((∀ m ∈ s.markets, m.market_id = mid → m.status = MarketStatus.closed) →
      handle_market_countdown_close s mid = s) := by
  refine ⟨?_, ⟨rfl, rfl, rfl⟩, ?_, ?_, ?_⟩
  · unfold handle_market_countdown_close
    simp only [List.map_map]
    congr 1
    apply List.map_congr_left
    intro m _
    simp only [Function.comp_apply]
    by_cases h : m.market_id = mid <;> simp [h]
  · intro m hm hne
    unfold handle_market_countdown_close
    simp only [List.mem_map]
    exact ⟨m, hm, by simp [beq_iff_eq, hne]⟩
  · intro m hm he
    unfold handle_market_countdown_close
    simp only [List.mem_map]
    exact ⟨m, hm, by simp [beq_iff_eq, he]⟩
  · intro hall
    unfold handle_market_countdown_close
    have hmap : s.markets.map (fun m =>
        if m.market_id == mid then { m with status := MarketStatus.closed } else m)
        = s.markets.map id := by
      apply List.map_congr_left
      intro m hm
      by_cases h : m.market_id = mid
      · have hs := hall m hm h
        cases m
        simp_all
      · simp [h]
    rw [hmap, List.map_id]

/-- C5 witness: on the scenario market while still open, the countdown
close produces the closed copy of the market row. -/
theorem countdown_close_unconditional_witness :
    (Market.mk 1 "Rain?" MarketStatus.open' none (some "A") none ∈ (run opsMarket).markets
      ∧ (1 : Nat) = 1)
  ∧ { Market.mk 1 "Rain?" MarketStatus.open' none (some "A") none with
        status := MarketStatus.closed }
      ∈ (handle_market_countdown_close (run opsMarket) 1).markets :=
  ⟨⟨by decide, rfl⟩,
    (countdown_close_unconditional (run opsMarket) 1).2.2.2.1
      (Market.mk 1 "Rain?" MarketStatus.open' none (some "A") none) (by decide) rfl⟩

/-- C6 counterexample.  The claim reads: `CancelOffer` by the bettor on a
non-open offer fails with `StateError` and leaves the offer unchanged, and
a successful cancellation transitions the (still existing) offer to status
`'cancelled'`.  The code performs no status check and deletes the row: the
bettor's cancellation of an *accepted* offer succeeds and removes it, and
cancelling an open offer leaves no offer row at all (rather than a
`'cancelled'` one). -/
theorem cancel_deletes_accepted_offer :
    ((run opsAccepted).bet_offers.map BetOffer.status = [OfferStatus.accepted])
  ∧ handle_bet_cancellation (run opsAccepted) "A" 1
      = ({ run opsAccepted with bet_offers := [] }, CancelOutcome.deleted)
  ∧ handle_bet_cancellation (run opsOffer) "A" 1
      = ({ run opsOffer with bet_offers := [] }, CancelOutcome.deleted) := by decide

/-- C6 amended: a cancellation request for a known offer by anyone but its
bettor fails and changes nothing; a request by the bettor deletes the offer
row outright — regardless of the offer's status (open, accepted or
cancelled alike), with no `'cancelled'` status transition and no surviving
record — while the `accepted_bets` table is left untouched. -/
theorem cancel_bet_deletes_for_bettor (s : Store) (uid : String) (bid : Nat)
    (bo : BetOffer)
    (hbo : s.bet_offers.find? (fun b => b.bet_id == bid) = some bo) :
    (uid ≠ bo.bettor_id → handle_bet_cancellation s uid bid = (s, CancelOutcome.notOwner))
  ∧ (uid = bo.bettor_id →
      handle_bet_cancellation s uid bid
        = ({ s with bet_offers := s.bet_offers.filter (fun b => !(b.bet_id == bid)) },
           CancelOutcome.deleted)
      ∧ (∀ b ∈ (handle_bet_cancellation s uid bid).1.bet_offers, b.bet_id ≠ bid)
      ∧ (handle_bet_cancellation s uid bid).1.accepted_bets = s.accepted_bets) := by
  constructor
  · intro hne
    unfold handle_bet_cancellation
    rw [hbo]
    simp [bne_iff_ne, hne]
  · intro heq
    have hrun : handle_bet_cancellation s uid bid
        = ({ s with bet_offers := s.bet_offers.filter (fun b => !(b.bet_id == bid)) },
           CancelOutcome.deleted) := by
      unfold handle_bet_cancellation
      rw [hbo]
      simp [bne_iff_ne, heq]
    refine ⟨hrun, ?_, ?_⟩
    · intro b hb
      rw [hrun] at hb
      simp only [List.mem_filter, Bool.not_eq_true', beq_eq_false_iff_ne] at hb
      exact hb.2
    · rw [hrun]

/-- C6 witness: cancelling the accepted scenario offer as its bettor A
deletes the offer row and keeps B's accepted-bet row. -/
theorem cancel_bet_deletes_for_bettor_witness :
    ((run opsAccepted).bet_offers.find? (fun b => b.bet_id == 1)
        = some ⟨1, 1, "A", "Yes", 10, 20, OfferStatus.accepted, none⟩
      ∧ "A" = "A")
  ∧ (handle_bet_cancellation (run opsAccepted) "A" 1
      = ({ run opsAccepted with
             bet_offers := (run opsAccepted).bet_offers.filter (fun b => !(b.bet_id == 1)) },
         CancelOutcome.deleted)
      ∧ (∀ b ∈ (handle_bet_cancellation (run opsAccepted) "A" 1).1.bet_offers, b.bet_id ≠ 1)
      ∧ (handle_bet_cancellation (run opsAccepted) "A" 1).1.accepted_bets
          = (run opsAccepted).accepted_bets) :=
  ⟨⟨by decide, rfl⟩,
    (cancel_bet_deletes_for_bettor (run opsAccepted) "A" 1
      ⟨1, 1, "A", "Yes", 10, 20, OfferStatus.accepted, none⟩ (by decide)).2 rfl⟩

/-- C7 counterexample.  The claim reads: a `CreateOffer` call with
`offer_amount ≤ 0` or `ask_amount < 0` (e.g. `offer_amount = -5`) fails
with `ValidationError` and persists no `BetOffer`.  The flow only catches
`float(...)` parse failures; a risk reply of `-5` parses fine and the offer
is created and persisted with `offer_amount = -5`. -/
theorem negative_offer_amount_is_persisted :
    handle_bet_offer_reaction (run opsMarket) "A" 1 "Yes" none (some (-5)) (some 20)
      = ({ run opsMarket with
             bet_offers := [⟨1, 1, "A", "Yes", -5, 20, OfferStatus.open', none⟩],
             next_bet_id := 2 },
         OfferOutcome.created 1) := by decide

/-- C7 amended: against an open market the offer-creation flow performs no
range validation at all — for any numeric risk and winnings replies,
negative or zero included, it persists a new open `BetOffer` carrying those
exact amounts; only a reply that `float(...)` cannot parse aborts the flow
(with nothing persisted), and that failure is a parse error, not a range
check. -/
theorem offer_amounts_not_range_checked (s : Store) (uid : String) (mid : Nat)
    (outc : String) (tgt : Option String) (risk ask : Rat) (m : Market)
    (hm : s.markets.find? (fun x => x.market_id == mid) = some m)
    (hopen : m.status = MarketStatus.open') :
    handle_bet_offer_reaction s uid mid outc tgt (some risk) (some ask)
      = ({ s with
             bet_offers := s.bet_offers ++
               [⟨s.next_bet_id, mid, uid, outc, risk, ask, OfferStatus.open', tgt⟩],
             next_bet_id := s.next_bet_id + 1 },
         OfferOutcome.created s.next_bet_id)
  ∧ handle_bet_offer_reaction s uid mid outc tgt none (some ask) = (s, OfferOutcome.invalidRisk)
  ∧ handle_bet_offer_reaction s uid mid outc tgt (some risk) none
      = (s, OfferOutcome.invalidWinnings) := by
  refine ⟨?_, ?_, ?_⟩ <;>
    · unfold handle_bet_offer_reaction
      rw [hm]
      simp [hopen]

/-- C7 witness: the scenario market is open, and a risk reply of `-5`
produces a persisted offer risking `-5`. -/
theorem offer_amounts_not_range_checked_witness :
    ((run opsMarket).markets.find? (fun x => x.market_id == 1)
        = some ⟨1, "Rain?", MarketStatus.open', none, some "A", none⟩
      ∧ MarketStatus.open' = MarketStatus.open')
  ∧ handle_bet_offer_reaction (run opsMarket) "A" 1 "Yes" none (some (-5)) (some 20)
      = ({ run opsMarket with
             bet_offers := (run opsMarket).bet_offers ++
               [⟨(run opsMarket).next_bet_id, 1, "A", "Yes", -5, 20, OfferStatus.open', none⟩],
             next_bet_id := (run opsMarket).next_bet_id + 1 },
         OfferOutcome.created (run opsMarket).next_bet_id) :=
  ⟨⟨by decide, rfl⟩,
    (offer_amounts_not_range_checked (run opsMarket) "A" 1 "Yes" none (-5) 20
      ⟨1, "Rain?", MarketStatus.open', none, some "A", none⟩ (by decide) rfl).1⟩

/-- C8.  `handle_bet_explanation` classifies `ask == 0` as the free-bet
case, then (`elif`) `offer == 0` as the pure-gift case, and otherwise
computes the needed equity `ask / (ask + offer) * 100`; at the scenario
amounts (risk 10, win 20) this is `200/3`, within `0.05` of `66.7` — the
`66.7%` the claim quotes. -/
theorem break_even_equity_spec :
    (∀ offer : Rat, breakEvenEquity offer 0 = EquityExplanation.freeBet)
  ∧ (∀ ask : Rat, ask ≠ 0 → breakEvenEquity 0 ask = EquityExplanation.pureGift)
  ∧ (∀ offer ask : Rat, ask ≠ 0 → offer ≠ 0 →
      breakEvenEquity offer ask = EquityExplanation.equityNeeded (ask / (ask + offer) * 100))
  ∧ breakEvenEquity 10 20 = EquityExplanation.equityNeeded (200 / 3)
  ∧ ((667 / 10 : Rat) - 200 / 3 < 1 / 20 ∧ (200 / 3 : Rat) - 667 / 10 < 1 / 20) := by
  refine ⟨?_, ?_, ?_, ?_, by norm_num, by norm_num⟩
  · intro offer
    simp [breakEvenEquity]
  · intro ask h
    simp [breakEvenEquity, h]
  · intro offer ask ha ho
    simp [breakEvenEquity, ha, ho]
  · norm_num [breakEvenEquity]

/-- C8 witness: the general formula applied at risk 10 / win 20. -/
theorem break_even_equity_spec_witness :
    ((20 : Rat) ≠ 0 ∧ (10 : Rat) ≠ 0)
  ∧ breakEvenEquity 10 20 = EquityExplanation.equityNeeded (20 / (20 + 10) * 100) :=
  ⟨⟨by norm_num, by norm_num⟩, break_even_equity_spec.2.2.1 10 20 (by norm_num) (by norm_num)⟩

/-- C3 counterexample.  The claim reads: a second `AcceptOffer` call on an
already-accepted offer, *by any acceptor*, fails with `StateError`.  The
handler checks self-acceptance before the offer's status, so when the
caller is the offer's own bettor ("A" here, on the already-accepted
scenario offer) the failure is the self-acceptance authorization error, not
the not-open `StateError` branch. -/
theorem accept_accepted_offer_self_not_state_error :
    ((run opsAccepted).bet_offers.map BetOffer.status = [OfferStatus.accepted])
  ∧ handle_bet_acceptance (run opsAccepted) "A" 1 = (run opsAccepted, AcceptOutcome.ownBet)
  ∧ AcceptOutcome.ownBet ≠ AcceptOutcome.notOpen := by decide

/-- C3 amended: a second `AcceptOffer` call on an already-accepted offer
always fails without touching the store — so no second `AcceptedBet` is
ever created and every offer has at most one acceptor — and the failure is
the not-open `StateError` for every caller except the offer's own bettor,
whose attempt trips the self-acceptance `AuthorizationError` first. -/
theorem accept_on_accepted_offer_fails (s : Store) (uid : String) (bid : Nat)
    (bo : BetOffer) (m : Market)
    (hbo : s.bet_offers.find? (fun b => b.bet_id == bid) = some bo)
    (hm : s.markets.find? (fun x => x.market_id == bo.market_id) = some m)
    (hacc : bo.status = OfferStatus.accepted) :
    handle_bet_acceptance s uid bid
      = (s, if uid == bo.bettor_id then AcceptOutcome.ownBet else AcceptOutcome.notOpen) := by
  unfold handle_bet_acceptance
  rw [hbo]
  dsimp only
  rw [hm]
  by_cases h : uid == bo.bettor_id
  · simp [h]
  · simp [h, hacc]

/-- C3 witness: the outsider C's second acceptance of the scenario offer
fails with the not-open `StateError` and the store is untouched. -/
theorem accept_on_accepted_offer_fails_witness :
    ((run opsAccepted).bet_offers.find? (fun b => b.bet_id == 1)
        = some ⟨1, 1, "A", "Yes", 10, 20, OfferStatus.accepted, none⟩
      ∧ OfferStatus.accepted = OfferStatus.accepted)
  ∧ handle_bet_acceptance (run opsAccepted) "C" 1 = (run opsAccepted, AcceptOutcome.notOpen) := by
  refine ⟨⟨by decide, rfl⟩, ?_⟩
  have h := accept_on_accepted_offer_fails (run opsAccepted) "C" 1
    ⟨1, 1, "A", "Yes", 10, 20, OfferStatus.accepted, none⟩
    ⟨1, "Rain?", MarketStatus.open', none, some "A", none⟩
    (by decide) (by decide) rfl
  simpa using h

/-- C10.  A ✅ reaction that passes every validation check commits the
offer-status flip and the `accepted_bets` insert, and then evaluates
`update_market_stats(message, market_data['market_id'])`.  `market_data` is
neither a local of `handle_bet_acceptance` nor a module-level name of
`main.py`, so the handler raises `NameError` — after the acceptance has
already been durably committed. -/
theorem accept_commits_then_name_error (s : Store) (uid : String) (bid : Nat)
    (bo : BetOffer) (m : Market)
    (hbo : s.bet_offers.find? (fun b => b.bet_id == bid) = some bo)
    (hm : s.markets.find? (fun x => x.market_id == bo.market_id) = some m)
    (hself : (uid == bo.bettor_id) = false)
    (hopen : bo.status = OfferStatus.open')
    (hmopen : m.status = MarketStatus.open')
    (htgt : (match bo.target_user_id with
             | some t => uid != t
             | none => false) = false) :
    resolvesInAcceptanceHandler "market_data" = false
  ∧ handle_bet_acceptance s uid bid
      = ({ s with
             bet_offers := s.bet_offers.map (fun b =>
               if b.bet_id == bid then { b with status := OfferStatus.accepted } else b),
             accepted_bets := s.accepted_bets ++
               [⟨s.next_accepted_id, bid, uid, AcceptedStatus.active⟩],
             next_accepted_id := s.next_accepted_id + 1 },
         AcceptOutcome.nameErrorAfterCommit "market_data") := by
  refine ⟨by decide, ?_⟩
  unfold handle_bet_acceptance
  rw [hbo]
  dsimp only
  rw [hm]
  simp [hself, hopen, hmopen, htgt, resolvesInAcceptanceHandler]
  decide

/-- C10 witness: B's acceptance of the open scenario offer commits the
acceptance and ends in the `market_data` `NameError`. -/
theorem accept_commits_then_name_error_witness :
    ((run opsOffer).bet_offers.find? (fun b => b.bet_id == 1)
        = some ⟨1, 1, "A", "Yes", 10, 20, OfferStatus.open', none⟩
      ∧ ("B" == "A") = false)
  ∧ (resolvesInAcceptanceHandler "market_data" = false
      ∧ handle_bet_acceptance (run opsOffer) "B" 1
          = ({ run opsOffer with
                 bet_offers := (run opsOffer).bet_offers.map (fun b =>
                   if b.bet_id == 1 then { b with status := OfferStatus.accepted } else b),
                 accepted_bets := (run opsOffer).accepted_bets ++
                   [⟨(run opsOffer).next_accepted_id, 1, "B", AcceptedStatus.active⟩],
                 next_accepted_id := (run opsOffer).next_accepted_id + 1 },
             AcceptOutcome.nameErrorAfterCommit "market_data")) :=
  ⟨⟨by decide, rfl⟩,
    accept_commits_then_name_error (run opsOffer) "B" 1
      ⟨1, 1, "A", "Yes", 10, 20, OfferStatus.open', none⟩
      ⟨1, "Rain?", MarketStatus.open', none, some "A", none⟩
      (by decide) (by decide) rfl rfl rfl rfl⟩

/-- C2.  Whenever `resolve_market` succeeds with winning outcome `w`, every
matched (accepted, active) bet of the market is settled in the report: if
the offer's outcome equals `w` the bettor wins `ask_amount` from the
acceptor, otherwise the acceptor wins `offer_amount` from the bettor. -/
theorem resolve_market_settles_each_matched_bet (s : Store) (mid : Nat)
    (author w : String) (results : List BetResult)
    (h : (resolve_market s mid author w).2 = Except.ok results) :
    ∀ p ∈ activeBets s mid,
      (p.1.outcome = w →
        BetResult.mk p.1.bet_id p.1.bettor_id p.2.acceptor_id p.1.ask_amount ∈ results)
    ∧ (p.1.outcome ≠ w →
        BetResult.mk p.1.bet_id p.2.acceptor_id p.1.bettor_id p.1.offer_amount ∈ results) := by
  unfold resolve_market at h
  cases hf : s.markets.find? (fun m => m.market_id == mid) with
  | none => rw [hf] at h; simp at h
  | some m =>
    rw [hf] at h
    dsimp only at h
    split at h
    · simp at h
    · split at h
      · simp at h
      · split at h
        · simp at h
        · simp only [Except.ok.injEq] at h
          intro p hp
          constructor
          · intro hw
            rw [← h]
            refine List.mem_map.mpr ⟨p, hp, ?_⟩
            simp [hw]
          · intro hw
            rw [← h]
            refine List.mem_map.mpr ⟨p, hp, ?_⟩
            simp [hw]

/-- C2 witness: the scenario resolution with winning outcome Yes settles
the matched bet with A (the bettor, whose outcome matches) winning 20 from
B (the acceptor). -/
theorem resolve_market_settles_each_matched_bet_witness :
    ((resolve_market (run opsAccepted) 1 "A" "Yes").2
        = Except.ok [BetResult.mk 1 "A" "B" 20]
      ∧ (⟨1, 1, "A", "Yes", 10, 20, OfferStatus.accepted, none⟩,
          ⟨1, 1, "B", AcceptedStatus.active⟩) ∈ activeBets (run opsAccepted) 1)
  ∧ BetResult.mk 1 "A" "B" 20 ∈ [BetResult.mk 1 "A" "B" 20] :=
  ⟨⟨by decide, by decide⟩,
    (resolve_market_settles_each_matched_bet (run opsAccepted) 1 "A" "Yes"
      [BetResult.mk 1 "A" "B" 20] (by decide)
      (⟨1, 1, "A", "Yes", 10, 20, OfferStatus.accepted, none⟩,
        ⟨1, 1, "B", AcceptedStatus.active⟩) (by decide)).1 rfl⟩

/-- A conditional status update leaves an offer's `bet_id` unchanged. -/
theorem ite_offer_status_bet_id (c : Prop) [Decidable c] (b : BetOffer) (x : OfferStatus) :
    (if c then { b with status := x } else b).bet_id = b.bet_id := by
  split <;> rfl

/-- A conditional status update leaves an accepted bet's `bet_id`
unchanged. -/
theorem ite_accepted_status_bet_id (c : Prop) [Decidable c] (ab : AcceptedBet)
    (x : AcceptedStatus) :
    (if c then { ab with status := x } else ab).bet_id = ab.bet_id := by
  split <;> rfl

/-- The invariant C4 must be weakened to: resolution is the only operation
that sets `winning_outcome` (together with status `resolved`), but the
countdown close can afterwards demote the status to `closed` without
clearing `winning_outcome`. -/
def MarketInv (s : Store) : Prop :=
  ∀ m ∈ s.markets,
    (m.status = MarketStatus.resolved → m.winning_outcome ≠ none)
  ∧ (m.winning_outcome ≠ none →
      m.status = MarketStatus.resolved ∨ m.status = MarketStatus.closed)

theorem marketInv_init : MarketInv initStore := by
  intro m hm
  simp [initStore] at hm

theorem marketInv_create (s : Store) (c t : String) (opts : List String)
    (h : MarketInv s) : MarketInv (create_market s c t opts).1 := by
  unfold create_market
  split
  · exact h
  · intro m hm
    simp only [List.mem_append, List.mem_singleton] at hm
    rcases hm with hm | rfl
    · exact h m hm
    · exact ⟨fun hst => by simp at hst, fun hw => by simp at hw⟩

theorem marketInv_setResolver (s : Store) (u : String) (mid : Nat) (r : String)
    (h : MarketInv s) : MarketInv (handle_set_market_resolver s u mid r) := by
  unfold handle_set_market_resolver
  cases s.markets.find? (fun m => m.market_id == mid) with
  | none => exact h
  | some m =>
    dsimp only
    split
    · exact h
    · split
      · exact h
      · intro m' hm'
        simp only [List.mem_map] at hm'
        obtain ⟨m0, hm0, rfl⟩ := hm'
        by_cases hid : m0.market_id = mid <;> simpa [hid] using h m0 hm0

theorem marketInv_close (s : Store) (mid : Nat) (h : MarketInv s) :
    MarketInv (handle_market_countdown_close s mid) := by
  intro m' hm'
  unfold handle_market_countdown_close at hm'
  simp only [List.mem_map] at hm'
  obtain ⟨m0, hm0, rfl⟩ := hm'
  by_cases hid : m0.market_id = mid
  · refine ⟨fun hst => ?_, fun hw => ?_⟩
    · simp [hid] at hst
    · simp [hid]
  · simpa [hid] using h m0 hm0

theorem marketInv_resolve (s : Store) (mid : Nat) (u w : String)
    (h : MarketInv s) : MarketInv (resolve_market s mid u w).1 := by
  unfold resolve_market
  cases hf : s.markets.find? (fun m => m.market_id == mid) with
  | none => exact h
  | some m =>
    dsimp only
    split
    · exact h
    · split
      · exact h
      · split
        · exact h
        · intro m' hm'
          simp only [List.mem_map] at hm'
          obtain ⟨m0, hm0, rfl⟩ := hm'
          by_cases hid : m0.market_id = mid
          · refine ⟨fun _ => by simp [hid], fun _ => by simp [hid]⟩
          · simpa [hid] using h m0 hm0

theorem offer_markets_eq (s : Store) (u : String) (mid : Nat) (outc : String)
    (tgt : Option String) (r a : Option Rat) :
    (handle_bet_offer_reaction s u mid outc tgt r a).1.markets = s.markets := by
  unfold handle_bet_offer_reaction
  cases s.markets.find? (fun m => m.market_id == mid) with
  | none => rfl
  | some m =>
    dsimp only
    split
    · rfl
    · cases r with
      | none => rfl
      | some risk =>
        cases a with
        | none => rfl
        | some ask => rfl

theorem accept_markets_eq (s : Store) (u : String) (bid : Nat) :
    (handle_bet_acceptance s u bid).1.markets = s.markets := by
  unfold handle_bet_acceptance
  cases s.bet_offers.find? (fun b => b.bet_id == bid) with
  | none => rfl
  | some bo =>
    dsimp only
    cases s.markets.find? (fun m => m.market_id == bo.market_id) with
    | none => rfl
    | some m =>
      dsimp only
      split
      · rfl
      · split
        · rfl
        · split
          · rfl
          · split
            · rfl
            · rfl

theorem cancel_markets_eq (s : Store) (u : String) (bid : Nat) :
    (handle_bet_cancellation s u bid).1.markets = s.markets := by
  unfold handle_bet_cancellation
  cases s.bet_offers.find? (fun b => b.bet_id == bid) with
  | none => rfl
  | some bo =>
    dsimp only
    split
    · rfl
    · rfl

theorem marketInv_applyOp (s : Store) (op : Op) (h : MarketInv s) :
    MarketInv (applyOp s op) := by
  cases op with
  | create c t opts => exact marketInv_create s c t opts h
  | setResolver u mid r => exact marketInv_setResolver s u mid r h
  | offer u mid outc tgt r a =>
      intro m hm
      rw [show (applyOp s (Op.offer u mid outc tgt r a)).markets = s.markets from
        offer_markets_eq s u mid outc tgt r a] at hm
      exact h m hm
  | accept u bid =>
      intro m hm
      rw [show (applyOp s (Op.accept u bid)).markets = s.markets from
        accept_markets_eq s u bid] at hm
      exact h m hm
  | cancel u bid =>
      intro m hm
      rw [show (applyOp s (Op.cancel u bid)).markets = s.markets from
        cancel_markets_eq s u bid] at hm
      exact h m hm
  | close mid => exact marketInv_close s mid h
  | resolve mid u w => exact marketInv_resolve s mid u w h

/-- C4 counterexample.  The claim reads: in every reachable state,
`winning_outcome` is non-null iff `status = resolved`.  Create → resolve →
countdown close reaches a market with `status = closed` and
`winning_outcome = "Yes"`: the countdown close runs on an already-resolved
market and demotes its status without clearing the outcome. -/
theorem closed_market_with_winning_outcome :
    (run opsResolvedThenClosed).markets
      = [⟨1, "Rain?", MarketStatus.closed, some "Yes", some "A", none⟩]
  ∧ ¬ (∀ m ∈ (run opsResolvedThenClosed).markets,
        (m.winning_outcome ≠ none ↔ m.status = MarketStatus.resolved)) := by decide

/-- C4 amended: in every reachable state, a resolved market always has a
non-null `winning_outcome`, and a non-null `winning_outcome` implies the
status is `resolved` or `closed` — the full iff fails only because the
timer close, applied to an already-resolved market, demotes its status to
`closed` while leaving `winning_outcome` set. -/
theorem reachable_winning_outcome_invariant (ops : List Op) (m : Market)
    (hm : m ∈ (run ops).markets) :
    (m.status = MarketStatus.resolved → m.winning_outcome ≠ none)
  ∧ (m.winning_outcome ≠ none →
      m.status = MarketStatus.resolved ∨ m.status = MarketStatus.closed) :=
  foldl_invariant (P := MarketInv) marketInv_init marketInv_applyOp ops m hm

/-- C4 witness: the invariant instantiated at the closed-with-outcome
market reached by create → resolve → close. -/
theorem reachable_winning_outcome_invariant_witness :
    Market.mk 1 "Rain?" MarketStatus.closed (some "Yes") (some "A") none
        ∈ (run opsResolvedThenClosed).markets
  ∧ ((MarketStatus.closed = MarketStatus.resolved → (some "Yes" : Option String) ≠ none)
      ∧ ((some "Yes" : Option String) ≠ none →
          MarketStatus.closed = MarketStatus.resolved
            ∨ MarketStatus.closed = MarketStatus.closed)) :=
  ⟨by decide,
    reachable_winning_outcome_invariant opsResolvedThenClosed
      (Market.mk 1 "Rain?" MarketStatus.closed (some "Yes") (some "A") none) (by decide)⟩

/-- The ledger invariant backing C9: ids stay below the AUTOINCREMENT
counter, and an offer still present in the store has status `accepted`
exactly when an `accepted_bets` row references it.  (Nothing is claimed
about `accepted_bets` rows whose offer has been deleted — cancellation
orphans them.) -/
def LedgerInv (s : Store) : Prop :=
  (∀ bo ∈ s.bet_offers, bo.bet_id < s.next_bet_id)
  ∧ (∀ ab ∈ s.accepted_bets, ab.bet_id < s.next_bet_id)
  ∧ (∀ bo ∈ s.bet_offers,
      (bo.status = OfferStatus.accepted ↔ ∃ ab ∈ s.accepted_bets, ab.bet_id = bo.bet_id))

theorem ledgerInv_init : LedgerInv initStore := by
  refine ⟨?_, ?_, ?_⟩ <;> intro x hx <;> simp [initStore] at hx

theorem ledgerInv_create (s : Store) (c t : String) (opts : List String)
    (h : LedgerInv s) : LedgerInv (create_market s c t opts).1 := by
  obtain ⟨h1, h2, h3⟩ := h
  unfold create_market
  split
  · exact ⟨h1, h2, h3⟩
  · exact ⟨h1, h2, h3⟩

theorem ledgerInv_setResolver (s : Store) (u : String) (mid : Nat) (r : String)
    (h : LedgerInv s) : LedgerInv (handle_set_market_resolver s u mid r) := by
  obtain ⟨h1, h2, h3⟩ := h
  unfold handle_set_market_resolver
  cases s.markets.find? (fun m => m.market_id == mid) with
  | none => exact ⟨h1, h2, h3⟩
  | some m =>
    dsimp only
    split
    · exact ⟨h1, h2, h3⟩
    · split
      · exact ⟨h1, h2, h3⟩
      · exact ⟨h1, h2, h3⟩

theorem ledgerInv_close (s : Store) (mid : Nat) (h : LedgerInv s) :
    LedgerInv (handle_market_countdown_close s mid) := by
  obtain ⟨h1, h2, h3⟩ := h
  exact ⟨h1, h2, h3⟩

theorem ledgerInv_offer (s : Store) (u : String) (mid : Nat) (outc : String)
    (tgt : Option String) (r a : Option Rat) (h : LedgerInv s) :
    LedgerInv (handle_bet_offer_reaction s u mid outc tgt r a).1 := by
  obtain ⟨h1, h2, h3⟩ := h
  unfold handle_bet_offer_reaction
  cases s.markets.find? (fun m => m.market_id == mid) with
  | none => exact ⟨h1, h2, h3⟩
  | some m =>
    dsimp only
    split
    · exact ⟨h1, h2, h3⟩
    · cases r with
      | none => exact ⟨h1, h2, h3⟩
      | some risk =>
        cases a with
        | none => exact ⟨h1, h2, h3⟩
        | some ask =>
          refine ⟨?_, ?_, ?_⟩
          · intro bo hbo
            simp only [List.mem_append, List.mem_singleton] at hbo
            rcases hbo with hbo | rfl
            · exact Nat.lt_succ_of_lt (h1 bo hbo)
            · exact Nat.lt_succ_self _
          · intro ab hab
            exact Nat.lt_succ_of_lt (h2 ab hab)
          · intro bo hbo
            simp only [List.mem_append, List.mem_singleton] at hbo
            rcases hbo with hbo | rfl
            · exact h3 bo hbo
            · constructor
              · intro hst
                simp at hst
              · rintro ⟨ab, hab, habid⟩
                exact absurd habid (Nat.ne_of_lt (h2 ab hab))

theorem ledgerInv_accept (s : Store) (u : String) (bid : Nat) (h : LedgerInv s) :
    LedgerInv (handle_bet_acceptance s u bid).1 := by
  obtain ⟨h1, h2, h3⟩ := h
  unfold handle_bet_acceptance
  cases hfo : s.bet_offers.find? (fun b => b.bet_id == bid) with
  | none => exact ⟨h1, h2, h3⟩
  | some bo =>
    dsimp only
    cases s.markets.find? (fun m => m.market_id == bo.market_id) with
    | none => exact ⟨h1, h2, h3⟩
    | some m =>
      dsimp only
      split
      · exact ⟨h1, h2, h3⟩
      · split
        · exact ⟨h1, h2, h3⟩
        · split
          · exact ⟨h1, h2, h3⟩
          · split
            · exact ⟨h1, h2, h3⟩
            · have hbomem : bo ∈ s.bet_offers := List.mem_of_find?_eq_some hfo
              have hbid : bo.bet_id = bid := by
                have := List.find?_some hfo
                simpa using this
              have hbidlt : bid < s.next_bet_id := hbid ▸ h1 bo hbomem
              refine ⟨?_, ?_, ?_⟩
              · intro b hb
                simp only [List.mem_map] at hb
                obtain ⟨b0, hb0, rfl⟩ := hb
                rw [ite_offer_status_bet_id]
                exact h1 b0 hb0
              · intro ab hab
                simp only [List.mem_append, List.mem_singleton] at hab
                rcases hab with hab | rfl
                · exact h2 ab hab
                · exact hbidlt
              · intro b hb
                simp only [List.mem_map] at hb
                obtain ⟨b0, hb0, rfl⟩ := hb
                by_cases hb0id : b0.bet_id = bid
                · simp only [hb0id, beq_self_eq_true, if_true]
                  constructor
                  · intro _
                    exact ⟨⟨s.next_accepted_id, bid, u, AcceptedStatus.active⟩,
                      by simp, by simp [hb0id]⟩
                  · intro _
                    trivial
                · simp only [beq_iff_eq, hb0id, if_false]
                  rw [h3 b0 hb0]
                  constructor
                  · rintro ⟨ab, hab, habid⟩
                    exact ⟨ab, List.mem_append_left _ hab, habid⟩
                  · rintro ⟨ab, hab, habid⟩
                    rcases List.mem_append.mp hab with hab | hab
                    · exact ⟨ab, hab, habid⟩
                    · simp only [List.mem_singleton] at hab
                      subst hab
                      exact absurd habid.symm hb0id

theorem ledgerInv_cancel (s : Store) (u : String) (bid : Nat) (h : LedgerInv s) :
    LedgerInv (handle_bet_cancellation s u bid).1 := by
  obtain ⟨h1, h2, h3⟩ := h
  unfold handle_bet_cancellation
  cases s.bet_offers.find? (fun b => b.bet_id == bid) with
  | none => exact ⟨h1, h2, h3⟩
  | some bo =>
    dsimp only
    split
    · exact ⟨h1, h2, h3⟩
    · refine ⟨?_, h2, ?_⟩
      · intro b hb
        exact h1 b (List.mem_of_mem_filter hb)
      · intro b hb
        exact h3 b (List.mem_of_mem_filter hb)

theorem ledgerInv_resolve (s : Store) (mid : Nat) (u w : String) (h : LedgerInv s) :
    LedgerInv (resolve_market s mid u w).1 := by
  obtain ⟨h1, h2, h3⟩ := h
  unfold resolve_market
  cases hf : s.markets.find? (fun m => m.market_id == mid) with
  | none => exact ⟨h1, h2, h3⟩
  | some m =>
    dsimp only
    split
    · exact ⟨h1, h2, h3⟩
    · split
      · exact ⟨h1, h2, h3⟩
      · split
        · exact ⟨h1, h2, h3⟩
        · refine ⟨?_, ?_, ?_⟩
          · intro b hb
            simp only [List.mem_map] at hb
            obtain ⟨b0, hb0, rfl⟩ := hb
            rw [ite_offer_status_bet_id]
            exact h1 b0 hb0
          · intro ab hab
            simp only [List.mem_map] at hab
            obtain ⟨ab0, hab0, rfl⟩ := hab
            rw [ite_accepted_status_bet_id]
            exact h2 ab0 hab0
          · intro b hb
            simp only [List.mem_map] at hb
            obtain ⟨b0, hb0, rfl⟩ := hb
            by_cases hcond : (b0.market_id == mid && b0.status == OfferStatus.open') = true
            · have hstatus : b0.status = OfferStatus.open' := by
                simp only [Bool.and_eq_true, beq_iff_eq] at hcond
                exact hcond.2
              simp only [hcond, if_true]
              constructor
              · intro hst
                simp at hst
              · rintro ⟨ab, hab, habid⟩
                simp only [List.mem_map] at hab
                obtain ⟨ab0, hab0, rfl⟩ := hab
                rw [ite_accepted_status_bet_id] at habid
                have hacc : b0.status = OfferStatus.accepted :=
                  (h3 b0 hb0).2 ⟨ab0, hab0, habid⟩
                rw [hstatus] at hacc
                simp at hacc
            · simp only [if_neg hcond]
              rw [h3 b0 hb0]
              exact (exists_betId_of_map s.accepted_bets _
                (fun ab => ite_accepted_status_bet_id _ ab _) b0.bet_id).symm

theorem ledgerInv_applyOp (s : Store) (op : Op) (h : LedgerInv s) :
    LedgerInv (applyOp s op) := by
  cases op with
  | create c t opts => exact ledgerInv_create s c t opts h
  | setResolver u mid r => exact ledgerInv_setResolver s u mid r h
  | offer u mid outc tgt r a => exact ledgerInv_offer s u mid outc tgt r a h
  | accept u bid => exact ledgerInv_accept s u bid h
  | cancel u bid => exact ledgerInv_cancel s u bid h
  | close mid => exact ledgerInv_close s mid h
  | resolve mid u w => exact ledgerInv_resolve s mid u w h

/-- C9 counterexample.  The claim reads: in every reachable state an
`AcceptedBet` exists for a given offer iff that `BetOffer`'s status is
`accepted`, and in particular cancelling never leaves an `AcceptedBet`
referencing a no-longer-existing offer.  After create → offer → accept →
cancel-by-bettor, the offer row is gone while B's `AcceptedBet` row (still
`active`, referencing bet 1) survives: the iff is violated exactly as the
claim rules out. -/
theorem cancel_orphans_accepted_bet :
    (run opsOrphan).bet_offers = []
  ∧ (run opsOrphan).accepted_bets = [⟨1, 1, "B", AcceptedStatus.active⟩]
  ∧ ¬ (∀ ab ∈ (run opsOrphan).accepted_bets,
        ∃ bo ∈ (run opsOrphan).bet_offers,
          bo.bet_id = ab.bet_id ∧ bo.status = OfferStatus.accepted) := by decide

/-- C9 amended: for every offer *still present* in a reachable store, its
status is `accepted` iff some `accepted_bets` row references it —
acceptance creates the row atomically with the status flip; but
cancellation deletes the offer row without deleting its `accepted_bets`
row, so an `AcceptedBet` can outlive its offer (the orphan shown in the
counterexample), which is why the claim's existence-iff cannot be stated
over `AcceptedBet` rows. -/
theorem offer_accepted_iff_accepted_bet_exists (ops : List Op) (bo : BetOffer)
    (hbo : bo ∈ (run ops).bet_offers) :
    bo.status = OfferStatus.accepted ↔
      ∃ ab ∈ (run ops).accepted_bets, ab.bet_id = bo.bet_id :=
  (foldl_invariant (P := LedgerInv) ledgerInv_init ledgerInv_applyOp ops).2.2 bo hbo

/-- C9 witness: the accepted scenario offer is matched by B's
accepted-bet row. -/
theorem offer_accepted_iff_accepted_bet_exists_witness :
    BetOffer.mk 1 1 "A" "Yes" 10 20 OfferStatus.accepted none ∈ (run opsAccepted).bet_offers
  ∧ (OfferStatus.accepted = OfferStatus.accepted ↔
      ∃ ab ∈ (run opsAccepted).accepted_bets, ab.bet_id = 1) :=
  ⟨by decide,
    offer_accepted_iff_accepted_bet_exists opsAccepted
      (BetOffer.mk 1 1 "A" "Yes" 10 20 OfferStatus.accepted none) (by decide)⟩

end BettingMarket
